import Mathlib

/-!
Verification of the `isocpp_p1950::indirect_value` wrapper
(src/indirect_value.h) against its specification.

The wrapper is embedded shallowly over an explicit heap model so that
allocation identity, deep-copy independence, delete-policy invocation
order and the exception-safety protocol of copy assignment are all
statable.  Machine pointers become natural-number handles into the heap;
the C++ `nullptr` state of the member `ptr_` becomes `Option.none`.
Policy objects (the copier `C` and deleter `D` of the template) are
carried as values of abstract types, and their runtime behaviour —
the copier call `C::operator()`, and the potentially throwing policy
copy-assignments performed by `operator=(const indirect_value&)` —
is supplied by an explicit semantics record, with `Except Unit`
modelling a thrown C++ exception.
-/

namespace IndirectValueSpec

section Model

variable {α γ δ : Type}

/-- Models the heap: cell `p` of the list is the allocation with address
`p`; `none` marks a released (or never-used) cell.  Fresh allocation
always happens at the end of the list, so an address returned by
`Heap.alloc` is distinct from every address already in use. -/
structure Heap (α : Type) where
  cells : List (Option α)
  deriving DecidableEq

/-- Reads the value stored at address `p`, `none` if the cell is out of
range or has been released (dereferencing such a handle is undefined
behaviour in the C++ source and never happens for a consistent wrapper). -/
def Heap.read (h : Heap α) (p : Nat) : Option α :=
  (h.cells.get? p).getD none

/-- Models `new T(...)`: appends a fresh cell and returns its address. -/
def Heap.alloc (h : Heap α) (v : α) : Heap α × Nat :=
  (⟨h.cells ++ [some v]⟩, h.cells.length)

/-- Models releasing the allocation at address `p` (the effect of the
delete policy on the heap). -/
def Heap.free (h : Heap α) (p : Nat) : Heap α :=
  ⟨h.cells.set p none⟩

/-- Models an in-place mutation of the object stored at address `p`
(e.g. `*b += 1` through the wrapper's unchecked dereference). -/
def Heap.write (h : Heap α) (p : Nat) (v : α) : Heap α :=
  ⟨h.cells.set p (some v)⟩

/-- Models the state of an `indirect_value<T, C, D>` object: the owning
handle `ptr` (member `T* ptr_`, line 89, `none` for `nullptr`) together
with the stored copy policy (base `indirect_value_copy_base<C>`) and
delete policy (base `indirect_value_delete_base<D>`).  Whether a policy
is stored as a field or as an empty base class is a layout matter with
no observable effect, so both storage strategies collapse to a plain
field here. -/
structure IndirectValue (γ δ : Type) where
  ptr : Option Nat
  copier : γ
  deleter : δ
  deriving DecidableEq

/-- Models `explicit operator bool() const` (line 170): true iff
`ptr_ != nullptr`. -/
def opBool (i : IndirectValue γ δ) : Bool :=
  i.ptr.isSome

/-- Models `has_value()` (line 172): true iff `ptr_ != nullptr`. -/
def hasValue (i : IndirectValue γ δ) : Bool :=
  i.ptr.isSome

/-- Models the unchecked dereference `operator*` (lines 142-148): reads
the pointee through the handle.  On an empty wrapper the source has
undefined behaviour; the model returns the default element, which no
theorem relies on. -/
def derefD [Inhabited α] (h : Heap α) (i : IndirectValue γ δ) : α :=
  ((i.ptr.bind h.read).getD default)

/-- Observable content of a wrapper: `none` when empty, `some v` when it
owns an allocation currently holding `v`. -/
def view (h : Heap α) (i : IndirectValue γ δ) : Option α :=
  i.ptr.bind h.read

/-- Models the exception type `bad_indirect_value_access` (lines 31-36). -/
inductive AccessError where
  | badIndirectValueAccess
  deriving DecidableEq

/-- Models `bad_indirect_value_access::what()` (lines 33-35). -/
def AccessError.what : AccessError → String
  | .badIndirectValueAccess => "bad_indirect_value_access"

/-- Models `T& value() &` (lines 150-153): throws
`bad_indirect_value_access` iff the wrapper is empty, otherwise returns
the pointee (the return itself is the unchecked `*ptr_`). -/
def value [Inhabited α] (h : Heap α) (i : IndirectValue γ δ) :
    Except AccessError α :=
  match i.ptr with
  | none => .error .badIndirectValueAccess
  | some _ => .ok (derefD h i)

/-- Models `const T& value() const&` (lines 155-158); the body is
identical to the lvalue overload. -/
def valueConst [Inhabited α] (h : Heap α) (i : IndirectValue γ δ) :
    Except AccessError α :=
  match i.ptr with
  | none => .error .badIndirectValueAccess
  | some _ => .ok (derefD h i)

/-- Models `T&& value() &&` (lines 160-163); moving out of the pointee
returns the same value. -/
def valueMove [Inhabited α] (h : Heap α) (i : IndirectValue γ δ) :
    Except AccessError α :=
  match i.ptr with
  | none => .error .badIndirectValueAccess
  | some _ => .ok (derefD h i)

/-- Models `const T&& value() const&&` (lines 165-168). -/
def valueConstMove [Inhabited α] (h : Heap α) (i : IndirectValue γ δ) :
    Except AccessError α :=
  match i.ptr with
  | none => .error .badIndirectValueAccess
  | some _ => .ok (derefD h i)

/-- Runtime semantics of the policy parameters `C` and `D` of the
template.  `runCopy` models the copier call `C::operator()(const T&)`
of the copy policy (producing the value to be freshly allocated, cf.
`default_copy`, line 28, which returns `new T(t)`); `assignCopier` and
`assignDeleter` model the potentially throwing policy copy-assignments
`copy_base::operator=` and `delete_base::operator=` used on lines
120-121.  A `.error ()` result models a thrown C++ exception. -/
structure PolicySem (α γ δ : Type) where
  runCopy : γ → α → Except Unit α
  assignCopier : γ → γ → Except Unit γ
  assignDeleter : δ → δ → Except Unit δ

/-- Semantics of the default policies `default_copy<T>` (line 28:
allocate a copy equal in value) and `std::default_delete<T>`, with the
trivial never-throwing policy assignments. -/
def defaultPolicySem (α : Type) : PolicySem α Unit Unit where
  runCopy := fun _ v => .ok v
  assignCopier := fun _ _ => .ok ()
  assignDeleter := fun _ _ => .ok ()

/-- Record of one invocation of the delete policy: the handle it was
passed and the state of the invoking wrapper observable at call time
(relevant when the deleter re-enters code inspecting the wrapper,
cf. the comment on lines 205-207). -/
structure DelCall (γ δ : Type) where
  handle : Nat
  observed : IndirectValue γ δ
  deriving DecidableEq

section Ops

variable {α γ δ : Type}

/-- Models the private `reset()` (lines 203-210): if `ptr_` is non-null,
first sets `ptr_` to null (`std::exchange(ptr_, nullptr)`) and only then
invokes the deleter on the old handle.  Returns the heap after the
deleter released the allocation, the updated wrapper, and the log of
deleter invocations, each recording the wrapper state visible during
the call. -/
def reset (h : Heap α) (i : IndirectValue γ δ) :
    Heap α × IndirectValue γ δ × List (DelCall γ δ) :=
  match i.ptr with
  | none => (h, i, [])
  | some p =>
      let i' : IndirectValue γ δ := { i with ptr := none }
      (h.free p, i', [⟨p, i'⟩])

/-- Models the destructor `~indirect_value()` (line 136), whose body is
exactly `reset()`. -/
def destruct (h : Heap α) (i : IndirectValue γ δ) :
    Heap α × IndirectValue γ δ × List (DelCall γ δ) :=
  reset h i

/-- Models the default constructor `indirect_value() = default` (line
96): null handle, default-constructed policies, no allocation. -/
def defaultConstruct [Inhabited γ] [Inhabited δ] : IndirectValue γ δ :=
  ⟨none, default, default⟩

/-- Models the in-place constructor (lines 98-100): allocates a fresh
pointee constructed from the forwarded arguments (here: holding value
`v`) and default-constructs the policies. -/
def inPlaceConstruct [Inhabited γ] [Inhabited δ] (h : Heap α) (v : α) :
    Heap α × IndirectValue γ δ :=
  let a := h.alloc v
  (a.1, ⟨some a.2, default, default⟩)

/-- Models the private `make_raw_copy()` (line 212): `nullptr` if the
wrapper is empty, otherwise the result of invoking the copy policy on
the pointee, freshly allocated.  A thrown copier exception propagates.
Dereferencing a dangling handle is undefined behaviour in the source
and never occurs for a wrapper consistent with the heap; the model
returns an empty copy there, which no theorem relies on. -/
def makeRawCopy (sem : PolicySem α γ δ) (h : Heap α)
    (i : IndirectValue γ δ) : Except Unit (Heap α × Option Nat) :=
  match i.ptr with
  | none => .ok (h, none)
  | some p =>
      match h.read p with
      | none => .ok (h, none)
      | some v =>
          match sem.runCopy i.copier v with
          | .error e => .error e
          | .ok w =>
              let a := h.alloc w
              .ok (a.1, some a.2)

/-- Models the copy constructor (lines 106-107): copy-constructs both
policies from the source and initialises `ptr_` with
`i.make_raw_copy()`; a copier exception propagates with nothing
allocated. -/
def copyConstruct (sem : PolicySem α γ δ) (h : Heap α)
    (i : IndirectValue γ δ) : Except Unit (Heap α × IndirectValue γ δ) :=
  match makeRawCopy sem h i with
  | .error e => .error e
  | .ok (h', q) => .ok (h', ⟨q, i.copier, i.deleter⟩)

/-- Models the move constructor (lines 109-112): the new wrapper takes
the source's handle (`std::exchange(i.ptr_, nullptr)`) and its policies
(move-construction of a policy is modelled as value-preserving), and
the source is left empty.  Declared `noexcept` and performs no
allocation, hence a pure function not touching the heap.  Returns
(constructed wrapper, moved-from source). -/
def moveConstruct (i : IndirectValue γ δ) :
    IndirectValue γ δ × IndirectValue γ δ :=
  (⟨i.ptr, i.copier, i.deleter⟩, { i with ptr := none })

/-- Dropping the temporary guard of `make_guarded_copy` (lines 214-220)
during stack unwinding: the `std::unique_ptr` invokes the wrapper's
deleter on the guarded copy unless the copy was null.  `obs` is the
wrapper state observable at that moment. -/
def guardDrop (h : Heap α) (q : Option Nat) (obs : IndirectValue γ δ) :
    Heap α × List (DelCall γ δ) :=
  match q with
  | none => (h, [])
  | some p => (h.free p, [⟨p, obs⟩])

/-- Outcome of `operator=(const indirect_value&)`: the heap and target
wrapper afterwards, whether an exception propagated, and the log of
delete-policy invocations performed. -/
structure OpResult (α γ δ : Type) where
  heap : Heap α
  target : IndirectValue γ δ
  threw : Bool
  delLog : List (DelCall γ δ)
  deriving DecidableEq

/-- Models the copy-assignment operator (lines 114-124), step for step:
(a) `auto temp_guard = i.make_guarded_copy();` — if the copier throws,
the exception propagates with the target untouched; (b) `reset();`,
then `copy_base::operator=(i);` and `delete_base::operator=(i);` — if a
policy assignment throws, the guard releases the fresh copy and the
target is left with a null handle; (c) `ptr_ = temp_guard.release();`.
A policy assignment that throws leaves that policy in its prior
(valid but unspecified) state, modelled as unchanged. -/
def copyAssign (sem : PolicySem α γ δ) (h : Heap α)
    (t s : IndirectValue γ δ) : OpResult α γ δ :=
  match makeRawCopy sem h s with
  | .error _ => ⟨h, t, true, []⟩
  | .ok (h1, q) =>
      match reset h1 t with
      | (h2, t1, log1) =>
          match sem.assignCopier t1.copier s.copier with
          | .error _ =>
              let g := guardDrop h2 q t1
              ⟨g.1, t1, true, log1 ++ g.2⟩
          | .ok c' =>
              let t2 : IndirectValue γ δ := { t1 with copier := c' }
              match sem.assignDeleter t2.deleter s.deleter with
              | .error _ =>
                  let g := guardDrop h2 q t2
                  ⟨g.1, t2, true, log1 ++ g.2⟩
              | .ok d' =>
                  ⟨h2, { t2 with deleter := d', ptr := q }, false, log1⟩

/-- Outcome of `operator=(indirect_value&&)`: heap, target and source
afterwards, and the delete-policy invocation log.  The operator is
declared `noexcept`, so there is no exception outcome. -/
structure MoveAssignResult (α γ δ : Type) where
  heap : Heap α
  target : IndirectValue γ δ
  source : IndirectValue γ δ
  delLog : List (DelCall γ δ)
  deriving DecidableEq

/-- Models the move-assignment operator (lines 126-134).  The C++ guard
`if (this != &i)` compares object identities, which value-passing
cannot express, so aliasing is an explicit flag: a self-move
(`aliased = true`, in which case `s` is the same object as `t`) is a
no-op; otherwise the target resets, takes the source's policies
(move-assignment of a policy modelled as value-preserving) and its
handle, and the source is left empty. -/
def moveAssign (h : Heap α) (t s : IndirectValue γ δ)
    (aliased : Bool) : MoveAssignResult α γ δ :=
  if aliased then
    ⟨h, t, t, []⟩
  else
    match reset h t with
    | (h1, _, log1) =>
        ⟨h1, ⟨s.ptr, s.copier, s.deleter⟩, { s with ptr := none }, log1⟩

end Ops

section Comparisons

variable {α γ δ : Type} [Inhabited α]

/-- Models `operator==` between two wrappers (lines 228-232):
`leftHasValue == bool(rhs) && (!leftHasValue || *lhs == *rhs)`, the
pointee comparison being the pointee type's own equality. -/
def ivEq [DecidableEq α] (h : Heap α) (lhs rhs : IndirectValue γ δ) : Bool :=
  let leftHasValue := opBool lhs
  leftHasValue == opBool rhs &&
    (!leftHasValue || decide (derefD h lhs = derefD h rhs))

/-- Models `operator!=` between two wrappers (lines 235-239):
`leftHasValue != bool(rhs) || (leftHasValue && *lhs != *rhs)`. -/
def ivNe [DecidableEq α] (h : Heap α) (lhs rhs : IndirectValue γ δ) : Bool :=
  let leftHasValue := opBool lhs
  leftHasValue != opBool rhs ||
    (leftHasValue && decide (derefD h lhs ≠ derefD h rhs))

/-- Models `operator<` between two wrappers (lines 242-245):
`bool(rhs) && (!bool(lhs) || *lhs < *rhs)`. -/
def ivLt [LinearOrder α] (h : Heap α) (lhs rhs : IndirectValue γ δ) : Bool :=
  opBool rhs && (!opBool lhs || decide (derefD h lhs < derefD h rhs))

/-- Models `operator>` between two wrappers (lines 248-251):
`bool(lhs) && (!bool(rhs) || *lhs > *rhs)`. -/
def ivGt [LinearOrder α] (h : Heap α) (lhs rhs : IndirectValue γ δ) : Bool :=
  opBool lhs && (!opBool rhs || decide (derefD h lhs > derefD h rhs))

/-- Models `operator<=` between two wrappers (lines 254-257):
`!bool(lhs) || (bool(rhs) && *lhs <= *rhs)`. -/
def ivLe [LinearOrder α] (h : Heap α) (lhs rhs : IndirectValue γ δ) : Bool :=
  !opBool lhs || (opBool rhs && decide (derefD h lhs ≤ derefD h rhs))

/-- Models `operator>=` between two wrappers (lines 260-263):
`!bool(rhs) || (bool(lhs) && *lhs >= *rhs)`. -/
def ivGe [LinearOrder α] (h : Heap α) (lhs rhs : IndirectValue γ δ) : Bool :=
  !opBool rhs || (opBool lhs && decide (derefD h lhs ≥ derefD h rhs))

/-- Models `operator==(lhs, nullptr)` (lines 280-282): `!lhs`. -/
def ivEqNull (lhs : IndirectValue γ δ) : Bool :=
  !opBool lhs

/-- Models `operator==(nullptr, rhs)` (lines 292-294): `!rhs`. -/
def nullEqIv (rhs : IndirectValue γ δ) : Bool :=
  !opBool rhs

/-- Models `operator!=(lhs, nullptr)` (lines 297-299): `bool(lhs)`. -/
def ivNeNull (lhs : IndirectValue γ δ) : Bool :=
  opBool lhs

/-- Models `operator!=(nullptr, rhs)` (lines 302-304): `bool(rhs)`. -/
def nullNeIv (rhs : IndirectValue γ δ) : Bool :=
  opBool rhs

/-- Models `operator<(lhs, nullptr)` (lines 307-309): `false`. -/
def ivLtNull (_ : IndirectValue γ δ) : Bool :=
  false

/-- Models `operator<(nullptr, rhs)` (lines 312-314): `bool(rhs)`. -/
def nullLtIv (rhs : IndirectValue γ δ) : Bool :=
  opBool rhs

/-- Models `operator>(lhs, nullptr)` (lines 317-319): `bool(lhs)`. -/
def ivGtNull (lhs : IndirectValue γ δ) : Bool :=
  opBool lhs

/-- Models `operator>(nullptr, rhs)` (lines 322-324): `false`. -/
def nullGtIv (_ : IndirectValue γ δ) : Bool :=
  false

/-- Models `operator<=(lhs, nullptr)` (lines 327-329): `!lhs`. -/
def ivLeNull (lhs : IndirectValue γ δ) : Bool :=
  !opBool lhs

/-- Models `operator<=(nullptr, rhs)` (lines 332-334): `true`. -/
def nullLeIv (_ : IndirectValue γ δ) : Bool :=
  true

/-- Models `operator>=(lhs, nullptr)` (lines 337-339): `true`. -/
def ivGeNull (_ : IndirectValue γ δ) : Bool :=
  true

/-- Models `operator>=(nullptr, rhs)` (lines 342-344): `!rhs`. -/
def nullGeIv (rhs : IndirectValue γ δ) : Bool :=
  !opBool rhs

/-- Models `operator==(const indirect_value&, const U&)` (lines 382-386):
`lhs && *lhs == rhs`. -/
def ivEqRaw [DecidableEq α] (h : Heap α) (lhs : IndirectValue γ δ)
    (rhs : α) : Bool :=
  opBool lhs && decide (derefD h lhs = rhs)

/-- Models `operator==(const T&, const indirect_value&)` (lines 388-392):
`rhs && lhs == *rhs`. -/
def rawEqIv [DecidableEq α] (h : Heap α) (lhs : α)
    (rhs : IndirectValue γ δ) : Bool :=
  opBool rhs && decide (lhs = derefD h rhs)

/-- Models `operator!=(const indirect_value&, const U&)` (lines 394-398):
`!lhs || *lhs != rhs`. -/
def ivNeRaw [DecidableEq α] (h : Heap α) (lhs : IndirectValue γ δ)
    (rhs : α) : Bool :=
  !opBool lhs || decide (derefD h lhs ≠ rhs)

/-- Models `operator!=(const T&, const indirect_value&)` (lines 400-404):
`!rhs || lhs != *rhs`. -/
def rawNeIv [DecidableEq α] (h : Heap α) (lhs : α)
    (rhs : IndirectValue γ δ) : Bool :=
  !opBool rhs || decide (lhs ≠ derefD h rhs)

/-- Models `operator<(const indirect_value&, const U&)` (lines 406-410):
`!lhs || *lhs < rhs`. -/
def ivLtRaw [LinearOrder α] (h : Heap α) (lhs : IndirectValue γ δ)
    (rhs : α) : Bool :=
  !opBool lhs || decide (derefD h lhs < rhs)

/-- Models `operator<(const T&, const indirect_value&)` (lines 412-416):
`rhs && lhs < *rhs`. -/
def rawLtIv [LinearOrder α] (h : Heap α) (lhs : α)
    (rhs : IndirectValue γ δ) : Bool :=
  opBool rhs && decide (lhs < derefD h rhs)

/-- Models `operator>(const indirect_value&, const U&)` (lines 418-422):
`lhs && *lhs > rhs`. -/
def ivGtRaw [LinearOrder α] (h : Heap α) (lhs : IndirectValue γ δ)
    (rhs : α) : Bool :=
  opBool lhs && decide (derefD h lhs > rhs)

/-- Models `operator>(const T&, const indirect_value&)` (lines 424-428):
`!rhs || lhs > *rhs`. -/
def rawGtIv [LinearOrder α] (h : Heap α) (lhs : α)
    (rhs : IndirectValue γ δ) : Bool :=
  !opBool rhs || decide (lhs > derefD h rhs)

/-- Models `operator<=(const indirect_value&, const U&)` (lines 430-434):
`!lhs || *lhs <= rhs`. -/
def ivLeRaw [LinearOrder α] (h : Heap α) (lhs : IndirectValue γ δ)
    (rhs : α) : Bool :=
  !opBool lhs || decide (derefD h lhs ≤ rhs)

/-- Models `operator<=(const T&, const indirect_value&)` (lines 436-440):
`rhs && lhs <= *rhs`. -/
def rawLeIv [LinearOrder α] (h : Heap α) (lhs : α)
    (rhs : IndirectValue γ δ) : Bool :=
  opBool rhs && decide (lhs ≤ derefD h rhs)

/-- Models `operator>=(const indirect_value&, const U&)` (lines 442-446):
`lhs && *lhs >= rhs`. -/
def ivGeRaw [LinearOrder α] (h : Heap α) (lhs : IndirectValue γ δ)
    (rhs : α) : Bool :=
  opBool lhs && decide (derefD h lhs ≥ rhs)

/-- Models `operator>=(const T&, const indirect_value&)` (lines 448-452):
`!rhs || lhs >= *rhs`. -/
def rawGeIv [LinearOrder α] (h : Heap α) (lhs : α)
    (rhs : IndirectValue γ δ) : Bool :=
  !opBool rhs || decide (lhs ≥ derefD h rhs)

end Comparisons

end Model

/-! Heap lemmas. -/

section HeapLemmas

variable {α : Type}

theorem Heap.lt_length_of_read_eq_some {h : Heap α} {p : Nat} {v : α}
    (hr : h.read p = some v) : p < h.cells.length := by
  by_contra hlt
  push_neg at hlt
  simp [Heap.read, List.getElem?_eq_none hlt] at hr

theorem Heap.read_alloc_self (h : Heap α) (v : α) :
    (h.alloc v).1.read (h.alloc v).2 = some v := by
  simp [Heap.read, Heap.alloc, List.getElem?_concat_length]

theorem Heap.read_alloc_of_lt {h : Heap α} {p : Nat}
    (hp : p < h.cells.length) (v : α) :
    (h.alloc v).1.read p = h.read p := by
  simp [Heap.read, Heap.alloc, List.getElem?_append_left hp]

theorem Heap.read_free_ne {p q : Nat} (h : Heap α) (hpq : p ≠ q) :
    (h.free q).read p = h.read p := by
  simp [Heap.read, Heap.free, List.getElem?_set_ne (Ne.symm hpq)]

theorem Heap.read_free_self (h : Heap α) (q : Nat) :
    (h.free q).read q = none := by
  rcases Nat.lt_or_ge q h.cells.length with hq | hq
  · simp [Heap.read, Heap.free, List.getElem?_set_eq_of_lt, hq]
  · have hlen : (h.cells.set q none).length ≤ q := by simpa using hq
    simp [Heap.read, Heap.free, List.getElem?_eq_none hlen]

theorem Heap.read_write_ne {p q : Nat} (h : Heap α) (hpq : p ≠ q)
    (u : α) : (h.write q u).read p = h.read p := by
  simp [Heap.read, Heap.write, List.getElem?_set_ne (Ne.symm hpq)]

theorem Heap.length_free (h : Heap α) (q : Nat) :
    (h.free q).cells.length = h.cells.length := by
  simp [Heap.free]

theorem Heap.length_write (h : Heap α) (q : Nat) (u : α) :
    (h.write q u).cells.length = h.cells.length := by
  simp [Heap.write]

end HeapLemmas

/-- A wrapper is consistent with a heap when a non-null handle refers to
a live allocation — the source's invariant that a non-null `ptr_` always
points to a fully constructed, exclusively owned allocation. -/
def consistentIn {α γ δ : Type} (h : Heap α) (i : IndirectValue γ δ) : Prop :=
  (view h i).isSome = hasValue i

instance {α γ δ : Type} (h : Heap α) (i : IndirectValue γ δ) :
    Decidable (consistentIn h i) := by
  unfold consistentIn
  infer_instance

/-! Claim theorems. -/

section Claims

variable {α γ δ : Type}

/-- C3: A default-constructed wrapper is empty (boolean conversion and
has_value return false), and for every value v, a wrapper constructed
in-place from v is non-empty and its checked accessor value() returns a
value comparing equal to v. -/
theorem default_empty_and_in_place_has_value [Inhabited α] [Inhabited γ]
    [Inhabited δ] :
    opBool (defaultConstruct : IndirectValue γ δ) = false ∧
    hasValue (defaultConstruct : IndirectValue γ δ) = false ∧
    ∀ (h : Heap α) (v : α),
      hasValue (inPlaceConstruct h v : Heap α × IndirectValue γ δ).2 = true ∧
      value (inPlaceConstruct h v : Heap α × IndirectValue γ δ).1
        (inPlaceConstruct h v : Heap α × IndirectValue γ δ).2 = .ok v := by
  refine ⟨rfl, rfl, fun h v => ⟨rfl, ?_⟩⟩
  have hr := Heap.read_alloc_self h v
  simp [inPlaceConstruct, value, derefD, hr]

/-- C4: For every wrapper x, the checked accessor value() (in all four
ref-qualified forms) raises bad_indirect_value_access if and only if x
is empty, and otherwise returns the pointee; being a pure function of
the wrapper and heap it modifies neither. -/
theorem value_raises_iff_empty [Inhabited α] (h : Heap α)
    (x : IndirectValue γ δ) :
    ((value h x = .error .badIndirectValueAccess) ↔ hasValue x = false) ∧
    ((valueConst h x = .error .badIndirectValueAccess) ↔
      hasValue x = false) ∧
    ((valueMove h x = .error .badIndirectValueAccess) ↔
      hasValue x = false) ∧
    ((valueConstMove h x = .error .badIndirectValueAccess) ↔
      hasValue x = false) ∧
    ∀ p v, x.ptr = some p → h.read p = some v →
      value h x = .ok v ∧ valueConst h x = .ok v ∧
      valueMove h x = .ok v ∧ valueConstMove h x = .ok v := by
  refine ⟨?_, ?_, ?_, ?_, ?_⟩
  · cases hx : x.ptr <;> simp [value, hasValue, hx]
  · cases hx : x.ptr <;> simp [valueConst, hasValue, hx]
  · cases hx : x.ptr <;> simp [valueMove, hasValue, hx]
  · cases hx : x.ptr <;> simp [valueConstMove, hasValue, hx]
  · intro p v hp hv
    simp [value, valueConst, valueMove, valueConstMove, hp, derefD, hv]

/-- C5: After move construction or move assignment from a wrapper into a
distinct wrapper, the target holds exactly the pointee handle and
policies the source held before and the source is empty; both are total
non-throwing operations (the source declares them noexcept) and neither
allocates: the heap does not grow and the pointee cell of the source is
untouched. -/
theorem move_transfers_handle_and_policies (h : Heap α)
    (t s : IndirectValue γ δ) :
    moveConstruct s = (⟨s.ptr, s.copier, s.deleter⟩, ⟨none, s.copier, s.deleter⟩) ∧
    (moveAssign h t s false).target = ⟨s.ptr, s.copier, s.deleter⟩ ∧
    (moveAssign h t s false).source = ⟨none, s.copier, s.deleter⟩ ∧
    (moveAssign h t s false).heap.cells.length = h.cells.length ∧
    ∀ p, s.ptr = some p → t.ptr ≠ s.ptr →
      (moveAssign h t s false).heap.read p = h.read p := by
  refine ⟨rfl, ?_, ?_, ?_, ?_⟩
  · cases ht : t.ptr <;> simp [moveAssign, reset, ht]
  · cases ht : t.ptr <;> simp [moveAssign, reset, ht]
  · cases ht : t.ptr <;> simp [moveAssign, reset, ht, Heap.length_free]
  · cases ht : t.ptr with
    | none => simp [moveAssign, reset, ht]
    | some q =>
        intro p hp hne
        rw [hp] at hne
        simp only [ne_eq, Option.some.injEq] at hne
        simp [moveAssign, reset, ht, Heap.read_free_ne h (Ne.symm hne)]

/-- C10: Every internal release of the owned allocation goes through
reset() — in destruction (destruct is reset), in copy assignment and in
move assignment (both call reset) — which first sets the handle to null
and only then invokes the delete policy on the old handle: the wrapper
state observable from inside the deleter is empty, the deleter is
invoked exactly once and only with the actual old handle (never a null
one), and resetting the already-reset wrapper invokes no deleter at
all. -/
theorem reset_nulls_handle_before_deleter (h : Heap α)
    (i : IndirectValue γ δ) :
    (i.ptr = none → reset h i = (h, i, [])) ∧
    (∀ p, i.ptr = some p →
      reset h i = (h.free p, ⟨none, i.copier, i.deleter⟩,
        [⟨p, ⟨none, i.copier, i.deleter⟩⟩]) ∧
      (reset h i).2.1.ptr = none ∧
      (reset h i).2.2.map DelCall.handle = [p] ∧
      ∀ c ∈ (reset h i).2.2, c.observed.ptr = none) ∧
    destruct h i = reset h i ∧
    (reset (reset h i).1 (reset h i).2.1).2.2 = [] := by
  cases hx : i.ptr <;> simp [reset, destruct, hx]

/-- C7: Two wrappers compare equal iff both are empty, or both are
non-empty and their pointees compare equal by the pointee type's
equality; x == nullptr iff x is empty; and the != forms (wrapper and
nullptr) are the exact negations of the == forms. -/
theorem wrapper_equality [Inhabited α] [DecidableEq α] (h : Heap α)
    (x y : IndirectValue γ δ) :
    (hasValue x = false → hasValue y = false → ivEq h x y = true) ∧
    (hasValue x ≠ hasValue y → ivEq h x y = false) ∧
    (∀ px vx py vy, x.ptr = some px → h.read px = some vx →
      y.ptr = some py → h.read py = some vy →
      (ivEq h x y = true ↔ vx = vy)) ∧
    ivNe h x y = !ivEq h x y ∧
    ivEqNull x = !hasValue x ∧ nullEqIv x = !hasValue x ∧
    ivNeNull x = !ivEqNull x ∧ nullNeIv x = !nullEqIv x := by
  refine ⟨?_, ?_, ?_, ?_, rfl, rfl, ?_, ?_⟩
  · intro hx hy
    simp [ivEq, opBool, hasValue] at *
    simp [hx, hy]
  · intro hne
    cases hx : x.ptr <;> cases hy : y.ptr <;>
      simp [hasValue, hx, hy] at hne <;> simp [ivEq, opBool, hx, hy]
  · intro px vx py vy hpx hvx hpy hvy
    simp [ivEq, opBool, hpx, hpy, derefD, hvx, hvy]
  · cases hx : x.ptr <;> cases hy : y.ptr <;>
      simp [ivEq, ivNe, opBool, hx, hy]
  · simp [ivNeNull, ivEqNull]
  · simp [nullNeIv, nullEqIv]

/-- C8: The ordering operators treat the empty wrapper and the null
sentinel as least elements: empty < non-empty is true and non-empty <
empty is false, two empty wrappers are equal and neither is less than
the other, nullptr is less than or equal to every wrapper, a non-empty
wrapper is greater than nullptr, and for two non-empty wrappers the
four ordering operators delegate to the pointee type's ordering. -/
theorem ordering_empty_and_null_least [Inhabited α] [LinearOrder α]
    (h : Heap α) (x y e e' : IndirectValue γ δ)
    (hx : hasValue x = true) (he : hasValue e = false)
    (he' : hasValue e' = false) :
    ivLt h e x = true ∧ ivLt h x e = false ∧
    ivLt h e e' = false ∧ ivLt h e' e = false ∧ ivEq h e e' = true ∧
    (∀ z : IndirectValue γ δ, nullLeIv z = true) ∧
    ivGtNull x = true ∧
    ∀ px vx py vy, x.ptr = some px → h.read px = some vx →
      y.ptr = some py → h.read py = some vy →
      ivLt h x y = decide (vx < vy) ∧ ivGt h x y = decide (vx > vy) ∧
      ivLe h x y = decide (vx ≤ vy) ∧ ivGe h x y = decide (vx ≥ vy) := by
  refine ⟨?_, ?_, ?_, ?_, ?_, fun z => rfl, ?_, ?_⟩
  · simp [ivLt, opBool, hasValue] at *; simp [hx, he]
  · simp [ivLt, opBool, hasValue] at *; simp [he]
  · simp [ivLt, opBool, hasValue] at *; simp [he']
  · simp [ivLt, opBool, hasValue] at *; simp [he]
  · simp [ivEq, opBool, hasValue] at *; simp [he, he']
  · simp [ivGtNull, opBool, hasValue] at *; simp [hx]
  · intro px vx py vy hpx hvx hpy hvy
    simp [ivLt, ivGt, ivLe, ivGe, opBool, hpx, hpy, derefD, hvx, hvy]

/-- C9: In wrapper-to-raw-value comparisons and their symmetric
raw-to-wrapper forms, an empty wrapper compares as less than,
less-than-or-equal to, not greater than, not greater-than-or-equal to,
and not equal to every raw value, while a non-empty wrapper yields
exactly the pointee's comparison with the raw value. -/
theorem raw_value_comparisons [Inhabited α] [LinearOrder α] (h : Heap α)
    (x e : IndirectValue γ δ) (u : α) (he : hasValue e = false) :
    ivEqRaw h e u = false ∧ rawEqIv h u e = false ∧
    ivNeRaw h e u = true ∧ rawNeIv h u e = true ∧
    ivLtRaw h e u = true ∧ rawLtIv h u e = false ∧
    ivGtRaw h e u = false ∧ rawGtIv h u e = true ∧
    ivLeRaw h e u = true ∧ rawLeIv h u e = false ∧
    ivGeRaw h e u = false ∧ rawGeIv h u e = true ∧
    ∀ p v, x.ptr = some p → h.read p = some v →
      ivEqRaw h x u = decide (v = u) ∧ rawEqIv h u x = decide (u = v) ∧
      ivNeRaw h x u = decide (v ≠ u) ∧ rawNeIv h u x = decide (u ≠ v) ∧
      ivLtRaw h x u = decide (v < u) ∧ rawLtIv h u x = decide (u < v) ∧
      ivGtRaw h x u = decide (v > u) ∧ rawGtIv h u x = decide (u > v) ∧
      ivLeRaw h x u = decide (v ≤ u) ∧ rawLeIv h u x = decide (u ≤ v) ∧
      ivGeRaw h x u = decide (v ≥ u) ∧ rawGeIv h u x = decide (u ≥ v) := by
  have heb : opBool e = false := he
  refine ⟨?_, ?_, ?_, ?_, ?_, ?_, ?_, ?_, ?_, ?_, ?_, ?_, ?_⟩ <;>
    simp [ivEqRaw, rawEqIv, ivNeRaw, rawNeIv, ivLtRaw, rawLtIv,
      ivGtRaw, rawGtIv, ivLeRaw, rawLeIv, ivGeRaw, rawGeIv, heb]
  intro p v hp hv
  simp [ivEqRaw, rawEqIv, ivNeRaw, rawNeIv, ivLtRaw, rawLtIv,
    ivGtRaw, rawGtIv, ivLeRaw, rawLeIv, ivGeRaw, rawGeIv,
    opBool, hp, derefD, hv]

/-- C2: For a non-empty wrapper a whose copy policy yields w on a's
pointee, copy construction yields a non-empty wrapper b whose pointee
is a fresh allocation holding w, with a's policies copied; the fresh
allocation is distinct from a's, a's cell still holds its old value,
and mutating b's pointee leaves a's pointee unchanged; when the policy
returns a value equal to the pointee (as the documented copy-policy
contract and default_copy guarantee), the two wrappers dereference
equal.  Copying an empty wrapper yields an empty wrapper with the same
policies and an untouched heap. -/
theorem copy_construct_is_deep_and_independent (sem : PolicySem α γ δ)
    (h : Heap α) (a : IndirectValue γ δ) :
    (a.ptr = none →
      copyConstruct sem h a = .ok (h, ⟨none, a.copier, a.deleter⟩)) ∧
    ∀ p v w, a.ptr = some p → h.read p = some v →
      sem.runCopy a.copier v = .ok w →
      copyConstruct sem h a =
        .ok ((h.alloc w).1, ⟨some (h.alloc w).2, a.copier, a.deleter⟩) ∧
      hasValue (⟨some (h.alloc w).2, a.copier, a.deleter⟩ :
        IndirectValue γ δ) = true ∧
      (h.alloc w).2 ≠ p ∧
      (h.alloc w).1.read (h.alloc w).2 = some w ∧
      (h.alloc w).1.read p = some v ∧
      (w = v →
        (h.alloc w).1.read (h.alloc w).2 = (h.alloc w).1.read p) ∧
      ∀ u, ((h.alloc w).1.write (h.alloc w).2 u).read p = some v := by
  constructor
  · intro ha
    simp [copyConstruct, makeRawCopy, ha]
  · intro p v w hp hv hw
    have hlt : p < h.cells.length := Heap.lt_length_of_read_eq_some hv
    have hne : (h.alloc w).2 ≠ p := by
      simp [Heap.alloc]
      omega
    have hra : (h.alloc w).1.read p = h.read p :=
      Heap.read_alloc_of_lt hlt w
    refine ⟨?_, rfl, hne, Heap.read_alloc_self h w, ?_, ?_, ?_⟩
    · simp [copyConstruct, makeRawCopy, hp, hv, hw]
    · rw [hra, hv]
    · intro hwv
      rw [Heap.read_alloc_self h w, hra, hv, hwv]
    · intro u
      rw [Heap.read_write_ne _ (Ne.symm hne) u, hra, hv]

/-- C1: Copy assignment is exception-atomic in the documented two-stage
way.  If the guarded copy of the source's pointee throws (step a), the
target keeps its heap, pointee and policies unchanged and nothing is
released.  If a policy copy-assignment throws after the guarded copy
succeeded (step b), the target is left empty.  If no step throws, the
target ends equal in value to the source — its pointee cell holds the
copy produced by the copy policy (equal in value by the copy-policy
contract) and its policies are the assigned ones — and the source's
allocation still holds its old value.  Hypotheses: the target is
consistent with the heap and does not alias the source's allocation
(the source's exclusive-ownership invariant). -/
theorem copy_assign_exception_protocol [Inhabited α]
    (sem : PolicySem α γ δ) (h : Heap α) (t s : IndirectValue γ δ)
    (hct : consistentIn h t)
    (hdisj : t.ptr ≠ s.ptr ∨ t.ptr = none) :
    (makeRawCopy sem h s = .error () →
      copyAssign sem h t s = ⟨h, t, true, []⟩) ∧
    ((makeRawCopy sem h s).isOk = true →
      (sem.assignCopier t.copier s.copier = .error () ∨
        ((sem.assignCopier t.copier s.copier).isOk = true ∧
          sem.assignDeleter t.deleter s.deleter = .error ())) →
      (copyAssign sem h t s).target.ptr = none ∧
      (copyAssign sem h t s).threw = true) ∧
    (∀ p v c' d', s.ptr = some p → h.read p = some v →
      sem.runCopy s.copier v = .ok v →
      sem.assignCopier t.copier s.copier = .ok c' →
      sem.assignDeleter t.deleter s.deleter = .ok d' →
      (copyAssign sem h t s).threw = false ∧
      (copyAssign sem h t s).target.copier = c' ∧
      (copyAssign sem h t s).target.deleter = d' ∧
      view (copyAssign sem h t s).heap (copyAssign sem h t s).target =
        some v ∧
      view (copyAssign sem h t s).heap s = some v) ∧
    (∀ c' d', s.ptr = none →
      sem.assignCopier t.copier s.copier = .ok c' →
      sem.assignDeleter t.deleter s.deleter = .ok d' →
      (copyAssign sem h t s).threw = false ∧
      (copyAssign sem h t s).target = ⟨none, c', d'⟩ ∧
      view (copyAssign sem h t s).heap s = none) := by
  have hvt : ∀ pt, t.ptr = some pt → pt < h.cells.length := by
    intro pt hpt
    have hc := hct
    simp [consistentIn, view, hasValue, hpt] at hc
    rcases Option.isSome_iff_exists.mp hc with ⟨w, hw⟩
    exact Heap.lt_length_of_read_eq_some hw
  refine ⟨?_, ?_, ?_, ?_⟩
  · intro herr
    simp [copyAssign, herr]
  · intro hok hbad
    cases hm : makeRawCopy sem h s with
    | error e => rw [hm] at hok; simp [Except.isOk, Except.toBool] at hok
    | ok pr =>
        obtain ⟨h1, q⟩ := pr
        rcases hbad with hce | ⟨hcok, hde⟩
        · cases ht : t.ptr <;>
            simp [copyAssign, hm, reset, ht, hce, guardDrop]
        · cases hca : sem.assignCopier t.copier s.copier with
          | error e =>
              rw [hca] at hcok
              simp [Except.isOk, Except.toBool] at hcok
          | ok c' =>
              cases ht : t.ptr <;>
                simp [copyAssign, hm, reset, ht, hca, hde, guardDrop]
  · intro p v c' d' hp hv hrc hc' hd'
    have hlt : p < h.cells.length := Heap.lt_length_of_read_eq_some hv
    have hm : makeRawCopy sem h s =
        .ok ((h.alloc v).1, some (h.alloc v).2) := by
      simp [makeRawCopy, hp, hv, hrc]
    cases ht : t.ptr with
    | none =>
        refine ⟨?_, ?_, ?_, ?_, ?_⟩ <;>
          simp [copyAssign, hm, reset, ht, hc', hd', view, hp,
            Heap.read_alloc_self, Heap.read_alloc_of_lt hlt, hv]
    | some pt =>
        have hptlt : pt < h.cells.length := hvt pt ht
        have hne : pt ≠ (h.alloc v).2 := by
          simp [Heap.alloc]
          omega
        have hps : pt ≠ p := by
          rcases hdisj with hd | hd
          · rw [ht, hp] at hd
            simpa using hd
          · rw [ht] at hd
            cases hd
        refine ⟨?_, ?_, ?_, ?_, ?_⟩ <;>
          simp [copyAssign, hm, reset, ht, hc', hd', view, hp,
            Heap.read_free_ne _ (Ne.symm hne),
            Heap.read_free_ne _ (Ne.symm hps),
            Heap.read_alloc_self, Heap.read_alloc_of_lt hlt, hv]
  · intro c' d' hs hc' hd'
    have hm : makeRawCopy sem h s = .ok (h, none) := by
      simp [makeRawCopy, hs]
    cases ht : t.ptr <;>
      simp [copyAssign, hm, reset, ht, hc', hd', view, hs]

/-- C6: Self-assignment leaves the wrapper observably unchanged and is
safe.  In the copy form (applying copy assignment with the wrapper as
both target and source, the aliasing the guard mechanism tolerates
because the guarded copy is independent of the current allocation),
nothing throws, emptiness and policies are preserved, the observable
value is the prior value, and the owned allocation is released at most
once — the delete log has at most one entry and every entry releases
exactly the old handle.  In the move form, the identity check
`this != &i` makes self-move a no-op.  Hypotheses: the wrapper is
consistent with the heap, its copy policy returns an equal value on
its pointee (the copy-policy contract), and self-assignment of its
policies succeeds preserving them. -/
theorem self_assignment_unchanged [Inhabited α] (sem : PolicySem α γ δ)
    (h : Heap α) (a : IndirectValue γ δ)
    (hca : consistentIn h a)
    (hfaith : sem.runCopy a.copier (derefD h a) = .ok (derefD h a))
    (hc : sem.assignCopier a.copier a.copier = .ok a.copier)
    (hd : sem.assignDeleter a.deleter a.deleter = .ok a.deleter) :
    (copyAssign sem h a a).threw = false ∧
    hasValue (copyAssign sem h a a).target = hasValue a ∧
    (copyAssign sem h a a).target.copier = a.copier ∧
    (copyAssign sem h a a).target.deleter = a.deleter ∧
    view (copyAssign sem h a a).heap (copyAssign sem h a a).target =
      view h a ∧
    (copyAssign sem h a a).delLog.length ≤ 1 ∧
    (∀ c ∈ (copyAssign sem h a a).delLog, a.ptr = some c.handle) ∧
    moveAssign h a a true = ⟨h, a, a, []⟩ := by
  cases ha : a.ptr with
  | none =>
      have hm : makeRawCopy sem h a = .ok (h, none) := by
        simp [makeRawCopy, ha]
      simp [copyAssign, hm, reset, ha, hc, hd, view, hasValue, moveAssign]
  | some p =>
      have hc2 := hca
      simp [consistentIn, view, hasValue, ha] at hc2
      rcases Option.isSome_iff_exists.mp hc2 with ⟨v, hv⟩
      have hlt := Heap.lt_length_of_read_eq_some hv
      have hder : derefD h a = v := by simp [derefD, ha, hv]
      rw [hder] at hfaith
      have hm : makeRawCopy sem h a =
          .ok ((h.alloc v).1, some (h.alloc v).2) := by
        simp [makeRawCopy, ha, hv, hfaith]
      have hne : p ≠ (h.alloc v).2 := by
        simp [Heap.alloc]
        omega
      simp [copyAssign, hm, reset, ha, hc, hd, view, hasValue, moveAssign,
        Heap.read_free_ne _ (Ne.symm hne), Heap.read_alloc_self, hv]

end Claims

/-! Witnesses: each claim theorem evaluated at a concrete input. -/

section Witnesses

/-- Witness: copy-assigning a wrapper holding 7 into one holding 3 with
the default policies succeeds, the target observes 7 and the source's
allocation still holds 7. -/
theorem copy_assign_exception_protocol_witness :
    consistentIn (⟨[some 3, some 7]⟩ : Heap Nat)
      (⟨some 0, (), ()⟩ : IndirectValue Unit Unit) ∧
    (copyAssign (defaultPolicySem Nat) ⟨[some 3, some 7]⟩
      ⟨some 0, (), ()⟩ ⟨some 1, (), ()⟩).threw = false ∧
    view (copyAssign (defaultPolicySem Nat) ⟨[some 3, some 7]⟩
        ⟨some 0, (), ()⟩ ⟨some 1, (), ()⟩).heap
      (copyAssign (defaultPolicySem Nat) ⟨[some 3, some 7]⟩
        ⟨some 0, (), ()⟩ ⟨some 1, (), ()⟩).target = some 7 ∧
    view (copyAssign (defaultPolicySem Nat) ⟨[some 3, some 7]⟩
        ⟨some 0, (), ()⟩ ⟨some 1, (), ()⟩).heap ⟨some 1, (), ()⟩ =
      some 7 := by
  have happ := (copy_assign_exception_protocol (defaultPolicySem Nat)
    ⟨[some 3, some 7]⟩ ⟨some 0, (), ()⟩ ⟨some 1, (), ()⟩
    (by decide) (by decide)).2.2.1 1 7 () () rfl (by decide) rfl rfl rfl
  exact ⟨by decide, happ.1, happ.2.2.2.1, happ.2.2.2.2⟩

/-- Witness: copy-constructing from a wrapper holding 42 allocates a
fresh cell, and mutating the copy's cell leaves the original's cell
holding 42. -/
theorem copy_construct_witness :
    copyConstruct (defaultPolicySem Nat) ⟨[some 42]⟩ ⟨some 0, (), ()⟩ =
      .ok (((⟨[some 42]⟩ : Heap Nat).alloc 42).1,
        ⟨some ((⟨[some 42]⟩ : Heap Nat).alloc 42).2, (), ()⟩) ∧
    ((⟨[some 42]⟩ : Heap Nat).alloc 42).2 ≠ 0 ∧
    ∀ u, (((⟨[some 42]⟩ : Heap Nat).alloc 42).1.write
        ((⟨[some 42]⟩ : Heap Nat).alloc 42).2 u).read 0 = some 42 := by
  have happ := (copy_construct_is_deep_and_independent
    (defaultPolicySem Nat) ⟨[some 42]⟩ ⟨some 0, (), ()⟩).2
    0 42 42 rfl (by decide) rfl
  exact ⟨happ.1, happ.2.2.1, happ.2.2.2.2.2.2⟩

/-- Witness: the checked accessor errors on a concrete empty wrapper and
returns the pointee of a concrete non-empty one. -/
theorem value_raises_iff_empty_witness :
    ((value (⟨[some 5]⟩ : Heap Nat)
        (⟨none, (), ()⟩ : IndirectValue Unit Unit) =
      .error .badIndirectValueAccess) ↔
      hasValue (⟨none, (), ()⟩ : IndirectValue Unit Unit) = false) ∧
    value (⟨[some 5]⟩ : Heap Nat)
      (⟨some 0, (), ()⟩ : IndirectValue Unit Unit) = .ok 5 := by
  refine ⟨(value_raises_iff_empty (⟨[some 5]⟩ : Heap Nat)
    ⟨none, (), ()⟩).1, ?_⟩
  exact ((value_raises_iff_empty (⟨[some 5]⟩ : Heap Nat)
    ⟨some 0, (), ()⟩).2.2.2.2 0 5 rfl (by decide)).1

/-- Witness: move-assigning a wrapper holding 2 into one holding 1
transfers handle 1 and leaves the source empty and its cell intact. -/
theorem move_transfers_witness :
    (moveAssign (⟨[some 1, some 2]⟩ : Heap Nat) ⟨some 0, (), ()⟩
      (⟨some 1, (), ()⟩ : IndirectValue Unit Unit) false).target =
      ⟨some 1, (), ()⟩ ∧
    (moveAssign (⟨[some 1, some 2]⟩ : Heap Nat) ⟨some 0, (), ()⟩
      (⟨some 1, (), ()⟩ : IndirectValue Unit Unit) false).source =
      ⟨none, (), ()⟩ ∧
    (moveAssign (⟨[some 1, some 2]⟩ : Heap Nat) ⟨some 0, (), ()⟩
      (⟨some 1, (), ()⟩ : IndirectValue Unit Unit) false).heap.read 1 =
      (⟨[some 1, some 2]⟩ : Heap Nat).read 1 := by
  have happ := move_transfers_handle_and_policies
    (⟨[some 1, some 2]⟩ : Heap Nat) ⟨some 0, (), ()⟩ ⟨some 1, (), ()⟩
  exact ⟨happ.2.1, happ.2.2.1, happ.2.2.2.2 1 rfl (by decide)⟩

/-- Witness: self-assigning a wrapper holding 9 keeps it observing 9,
releases at most one allocation, and the self-move is a no-op. -/
theorem self_assignment_witness :
    consistentIn (⟨[some 9]⟩ : Heap Nat)
      (⟨some 0, (), ()⟩ : IndirectValue Unit Unit) ∧
    view (copyAssign (defaultPolicySem Nat) ⟨[some 9]⟩ ⟨some 0, (), ()⟩
        ⟨some 0, (), ()⟩).heap
      (copyAssign (defaultPolicySem Nat) ⟨[some 9]⟩ ⟨some 0, (), ()⟩
        ⟨some 0, (), ()⟩).target =
      view (⟨[some 9]⟩ : Heap Nat) ⟨some 0, (), ()⟩ ∧
    (copyAssign (defaultPolicySem Nat) ⟨[some 9]⟩ ⟨some 0, (), ()⟩
      ⟨some 0, (), ()⟩).delLog.length ≤ 1 ∧
    moveAssign (⟨[some 9]⟩ : Heap Nat) ⟨some 0, (), ()⟩ ⟨some 0, (), ()⟩
      true = ⟨⟨[some 9]⟩, ⟨some 0, (), ()⟩, ⟨some 0, (), ()⟩, []⟩ := by
  have happ := self_assignment_unchanged (defaultPolicySem Nat)
    ⟨[some 9]⟩ ⟨some 0, (), ()⟩ (by decide) rfl rfl rfl
  exact ⟨by decide, happ.2.2.2.2.1, happ.2.2.2.2.2.1, happ.2.2.2.2.2.2.2⟩

/-- Witness: two wrappers holding 4 compare equal iff 4 = 4, and the
null comparison of an empty wrapper agrees with its emptiness. -/
theorem wrapper_equality_witness :
    (ivEq (⟨[some 4, some 4]⟩ : Heap Nat)
        (⟨some 0, (), ()⟩ : IndirectValue Unit Unit) ⟨some 1, (), ()⟩ =
      true ↔ (4 : Nat) = 4) ∧
    ivEqNull (⟨none, (), ()⟩ : IndirectValue Unit Unit) =
      !hasValue (⟨none, (), ()⟩ : IndirectValue Unit Unit) := by
  refine ⟨(wrapper_equality (⟨[some 4, some 4]⟩ : Heap Nat)
    ⟨some 0, (), ()⟩ ⟨some 1, (), ()⟩).2.2.1 0 4 1 4 rfl (by decide)
    rfl (by decide), ?_⟩
  exact (wrapper_equality (⟨[some 4, some 4]⟩ : Heap Nat)
    (⟨none, (), ()⟩ : IndirectValue Unit Unit) ⟨none, (), ()⟩).2.2.2.2.1

/-- Witness: a concrete empty wrapper is less than a wrapper holding 5
and not conversely. -/
theorem ordering_empty_and_null_least_witness :
    ivLt (⟨[some 5]⟩ : Heap Nat)
      (⟨none, (), ()⟩ : IndirectValue Unit Unit) ⟨some 0, (), ()⟩ =
      true ∧
    ivLt (⟨[some 5]⟩ : Heap Nat) ⟨some 0, (), ()⟩
      (⟨none, (), ()⟩ : IndirectValue Unit Unit) = false := by
  have happ := ordering_empty_and_null_least (⟨[some 5]⟩ : Heap Nat)
    ⟨some 0, (), ()⟩ ⟨some 0, (), ()⟩ ⟨none, (), ()⟩ ⟨none, (), ()⟩
    rfl rfl rfl
  exact ⟨happ.1, happ.2.1⟩

/-- Witness: a concrete empty wrapper is less than the raw value 5, and
a wrapper holding 5 equals the raw value 5 by delegation. -/
theorem raw_value_comparisons_witness :
    ivLtRaw (⟨[some 5]⟩ : Heap Nat)
      (⟨none, (), ()⟩ : IndirectValue Unit Unit) 5 = true ∧
    ivEqRaw (⟨[some 5]⟩ : Heap Nat)
      (⟨some 0, (), ()⟩ : IndirectValue Unit Unit) 5 =
      decide ((5 : Nat) = 5) := by
  have happ := raw_value_comparisons (⟨[some 5]⟩ : Heap Nat)
    ⟨some 0, (), ()⟩ ⟨none, (), ()⟩ 5 rfl
  exact ⟨happ.2.2.2.2.1,
    (happ.2.2.2.2.2.2.2.2.2.2.2.2 0 5 rfl (by decide)).1⟩

/-- Witness: resetting a wrapper owning cell 0 frees the cell, nulls
the handle before the deleter runs, and logs exactly that call;
resetting an empty wrapper calls no deleter. -/
theorem reset_nulls_handle_before_deleter_witness :
    reset (⟨[some 6]⟩ : Heap Nat)
      (⟨some 0, (), ()⟩ : IndirectValue Unit Unit) =
      ((⟨[some 6]⟩ : Heap Nat).free 0, ⟨none, (), ()⟩,
        [⟨0, ⟨none, (), ()⟩⟩]) ∧
    reset (⟨[none]⟩ : Heap Nat)
      (⟨none, (), ()⟩ : IndirectValue Unit Unit) =
      (⟨[none]⟩, ⟨none, (), ()⟩, []) := by
  refine ⟨((reset_nulls_handle_before_deleter (⟨[some 6]⟩ : Heap Nat)
    ⟨some 0, (), ()⟩).2.1 0 rfl).1, ?_⟩
  exact (reset_nulls_handle_before_deleter (⟨[none]⟩ : Heap Nat)
    ⟨none, (), ()⟩).1 rfl

end Witnesses

end IndirectValueSpec
